import Mathlib

/-
  Verification of the FileTransferApp transfer engine against its
  specification.  The TypeScript sources are shallowly embedded:
  byte buffers (ArrayBuffer, File contents) become lists of naturals,
  JS numbers that carry fractional values (speeds, percentages,
  timestamps) become rationals, strings become lists of characters,
  and the stateful managers become explicit state-passing functions.
-/

set_option maxRecDepth 4000

-- ============================================================
-- src/utils/fileUtils.ts : chunking and reassembly
-- ============================================================

/-- Fixed chunk size constant from src/types/index.ts: 64 KiB. -/
def CHUNK_SIZE : Nat := 64 * 1024

/-- Math.ceil(size / C) for natural size and positive C, as used by
createFileMetadata (metadata.chunks) and by handleFileMetadata. -/
def numChunks (C size : Nat) : Nat := (size + C - 1) / C

/-- chunkFile: the loop `for i in 0..metadata.chunks` slicing
[i*C, min(i*C + C, size)) out of the file.  file.slice(start, end)
is (drop start).take (end - start), which coincides with
(drop start).take C because take clamps at the end of the list. -/
def chunkFile (C : Nat) (file : List Nat) : List (List Nat) :=
  (List.range (numChunks C file.length)).map (fun i => ((file.drop (i * C)).take C))

/-- reassembleChunks: new Blob(chunks) concatenates the buffers in order. -/
def reassembleChunks (chunks : List (List Nat)) : List Nat := chunks.flatten

lemma join_chunks_take (C : Nat) (l : List Nat) :
    ∀ n : Nat, ((List.range n).map (fun i => ((l.drop (i * C)).take C))).flatten = l.take (n * C) := by
  intro n
  induction n with
  | zero => simp
  | succ n ih =>
      rw [List.range_succ, List.map_append, List.flatten_append, ih]
      simp only [List.map_cons, List.map_nil, List.flatten_cons, List.flatten_nil, List.append_nil]
      rw [← List.take_add, Nat.succ_mul]

lemma le_numChunks_mul (C s : Nat) (hC : 0 < C) : s ≤ numChunks C s * C := by
  cases s with
  | zero => exact Nat.zero_le _
  | succ s =>
      have h1 : numChunks C (s + 1) = s / C + 1 := by
        unfold numChunks
        have h2 : s + 1 + C - 1 = s + C := by omega
        rw [h2, Nat.add_div_right _ hC]
      rw [h1]
      have h2 : s < (s / C + 1) * C := (Nat.div_lt_iff_lt_mul hC).mp (Nat.lt_succ_self _)
      exact Nat.succ_le_of_lt h2

-- ============================================================
-- src/utils/peerUtils.ts : identifier generate / validate / format / parse
-- Strings are modelled as lists of characters.
-- ============================================================

/-- The 32-symbol alphabet of generatePeerId (excludes I, O, 0, 1). -/
def alphabet : List Char := "ABCDEFGHJKLMNPQRSTUVWXYZ23456789".toList

/-- generatePeerId: six characters picked by chars[Math.floor(Math.random()*32)];
the random draws are supplied as a function from position to index. -/
def generatePeerId (r : Fin 6 → Fin 32) : List Char :=
  List.ofFn (fun i : Fin 6 => alphabet.getD (r i).val 'A')

/-- Whitespace recognised by the model of String.prototype.trim and of
the \s class in parsePeerId (the ASCII whitespace characters). -/
def wsChar (c : Char) : Bool :=
  (c == ' ') || (c == '\t') || (c == '\n') || (c == '\r')

/-- String.prototype.trim on a list of characters. -/
def trimChars (l : List Char) : List Char :=
  ((l.dropWhile wsChar).reverse.dropWhile wsChar).reverse

/-- String.prototype.toUpperCase on a list of characters. -/
def upperChars (l : List Char) : List Char := l.map Char.toUpper

/-- Membership in the character class [A-Z0-9]. -/
def isAZ09 (c : Char) : Bool :=
  decide (('A' ≤ c ∧ c ≤ 'Z') ∨ ('0' ≤ c ∧ c ≤ '9'))

/-- The regular expression test /^[A-Z0-9]+$/.test(s). -/
def regexAZ09test (l : List Char) : Bool := (!l.isEmpty) && l.all isAZ09

/-- Result object of validatePeerId: valid flag plus optional error string. -/
structure ValidationResult where
  valid : Bool
  error : Option String
deriving DecidableEq

/-- validatePeerId: empty check (the JS guard !peerId or trim() being
empty collapses to the trim being empty), then length check, then the
character-class test, all on the trimmed uppercased input. -/
def validatePeerId (peerId : List Char) : ValidationResult :=
  if trimChars peerId = [] then ⟨false, some "Peer ID is required"⟩
  else
    let trimmed := upperChars (trimChars peerId)
    if trimmed.length ≠ 6 then ⟨false, some "Peer ID must be 6 characters"⟩
    else if regexAZ09test trimmed = false then
      ⟨false, some "Peer ID must contain only letters and numbers"⟩
    else ⟨true, none⟩

/-- formatPeerId: returns the input unchanged unless it has exactly six
characters, in which case a hyphen is inserted after the third. -/
def formatPeerId (peerId : List Char) : List Char :=
  if peerId = [] ∨ peerId.length ≠ 6 then peerId
  else peerId.take 3 ++ ('-' :: peerId.drop 3)

/-- parsePeerId: removes hyphens and whitespace, then uppercases. -/
def parsePeerId (formatted : List Char) : List Char :=
  upperChars (formatted.filter (fun c => !((c == '-') || wsChar c)))

lemma alphabet_char_facts :
    ∀ c ∈ alphabet, wsChar c = false ∧ Char.toUpper c = c ∧ isAZ09 c = true ∧ (c == '-') = false := by
  decide

lemma alphabet_getD_mem : ∀ j : Fin 32, alphabet.getD j.val 'A' ∈ alphabet := by
  decide

lemma dropWhile_eq_self_of_none {p : Char → Bool} :
    ∀ {l : List Char}, (∀ c ∈ l, p c = false) → l.dropWhile p = l := by
  intro l h
  cases l with
  | nil => rfl
  | cons a l =>
      rw [List.dropWhile_cons, h a (List.mem_cons_self a l)]
      simp

lemma trimChars_eq_self {l : List Char} (h : ∀ c ∈ l, wsChar c = false) :
    trimChars l = l := by
  unfold trimChars
  rw [dropWhile_eq_self_of_none h]
  rw [dropWhile_eq_self_of_none (by intro c hc; exact h c (List.mem_reverse.mp hc))]
  exact List.reverse_reverse l

lemma map_eq_self {f : Char → Char} :
    ∀ {l : List Char}, (∀ c ∈ l, f c = c) → l.map f = l := by
  intro l
  induction l with
  | nil => intro _; rfl
  | cons a l ih =>
      intro h
      rw [List.map_cons, h a (List.mem_cons_self a l), ih (fun c hc => h c (List.mem_cons_of_mem a hc))]

-- ============================================================
-- src/services/ThroughputCalculator.ts
-- JS numbers (bytes, millisecond timestamps, speeds) are rationals.
-- ============================================================

structure ThroughputSample where
  bytes : ℚ
  timestamp : ℚ
deriving DecidableEq

structure ThroughputCalculator where
  samples : List ThroughputSample
  windowSize : ℕ
  smoothingFactor : ℚ
  smoothedSpeed : ℚ
  lastUpdateTime : ℚ
deriving DecidableEq

/-- Constructor with the default windowSize 10 and smoothingFactor 0.3. -/
def ThroughputCalculator.init : ThroughputCalculator :=
  ⟨[], 10, (3 : ℚ) / 10, 0, 0⟩

/-- addSample(bytes, timestamp): first call only records the baseline
timestamp; later calls with positive time delta push the sample into the
bounded window and update the exponential moving average, bootstrapping
it with the instantaneous speed while the average is still zero. -/
def ThroughputCalculator.addSample (tc : ThroughputCalculator) (bytes timestamp : ℚ) :
    ThroughputCalculator :=
  if tc.lastUpdateTime = 0 then { tc with lastUpdateTime := timestamp }
  else
    let timeDelta := (timestamp - tc.lastUpdateTime) / 1000
    if timeDelta ≤ 0 then tc
    else
      let instantSpeed := bytes / timeDelta
      let pushed := tc.samples ++ [⟨bytes, timestamp⟩]
      let kept := if tc.windowSize < pushed.length then pushed.drop 1 else pushed
      let smoothed :=
        if tc.smoothedSpeed = 0 then instantSpeed
        else tc.smoothingFactor * instantSpeed + (1 - tc.smoothingFactor) * tc.smoothedSpeed
      { tc with samples := kept, smoothedSpeed := smoothed, lastUpdateTime := timestamp }

/-- getSpeed: the current smoothed estimate. -/
def ThroughputCalculator.getSpeed (tc : ThroughputCalculator) : ℚ := tc.smoothedSpeed

/-- getETA(remainingBytes): none models the Infinity sentinel returned
when the speed is not positive (rationals are always finite). -/
def ThroughputCalculator.getETA (tc : ThroughputCalculator) (remainingBytes : ℚ) : Option ℚ :=
  if tc.smoothedSpeed ≤ 0 then none else some (remainingBytes / tc.smoothedSpeed)

-- ============================================================
-- src/services/TransferManager.ts : adaptChunkSize
-- ============================================================

/-- Math.round: floor(x + 1/2), matching the JS half-up rounding. -/
def jsRound (x : ℚ) : ℤ := ⌊x + 1 / 2⌋

/-- adaptChunkSize as a pure function of the configured bounds, the
previous chunk size and the current speed: target 100 ms per chunk,
clamp the ideal size into the bounds, blend 70 percent old, 30 percent
new, and round. -/
def adaptChunkSize (minChunkSize maxChunkSize currentChunkSize : ℤ) (speedBps : ℚ) : ℤ :=
  let idealSize : ℚ := speedBps * (1 / 10)
  let newSize : ℚ := max (minChunkSize : ℚ) (min (maxChunkSize : ℚ) idealSize)
  jsRound ((currentChunkSize : ℚ) * (7 / 10) + newSize * (3 / 10))

/-- Modelled from the spec: clamp(minChunk, maxChunk, x), written the
way section 4.2 of the specification words it, for comparison with the
max-min expression the code computes. -/
def clampQ (lo hi : ℤ) (x : ℚ) : ℚ := max (lo : ℚ) (min (hi : ℚ) x)

-- ============================================================
-- src/services/PeerManager.ts : retry state machine
-- Only the fields touched by connect() and handleRetry() are modelled.
-- ============================================================

inductive ConnState where
  | idle
  | connecting
  | connected
  | transferring
  | completed
  | error
deriving DecidableEq

structure PeerState where
  state : ConnState
  retryCount : ℕ
  maxRetries : ℕ
  remoteSet : Bool
  retryScheduled : Bool
deriving DecidableEq

/-- State immediately after initialize() resolves: idle, no retries. -/
def initPeer (maxRetries : ℕ) : PeerState :=
  ⟨ConnState.idle, 0, maxRetries, false, false⟩

/-- handleRetry: if the retry budget is spent, transition to error and
stop; otherwise increment the counter, stay connecting and schedule a
reconnect via setTimeout. -/
def handleRetry (s : PeerState) : PeerState :=
  if s.maxRetries ≤ s.retryCount then
    { s with state := ConnState.error, retryScheduled := false }
  else
    { s with retryCount := s.retryCount + 1, state := ConnState.connecting,
             retryScheduled := true }

/-- The state updates at the top of connect(remotePeerId): the retry
counter is reset to zero, the remote id is stored and the state becomes
connecting.  When connect runs from the scheduled retry timeout, the
pending schedule is consumed. -/
def connectInvoke (s : PeerState) : PeerState :=
  { s with retryCount := 0, remoteSet := true, state := ConnState.connecting,
           retryScheduled := false }

/-- One complete failed connection attempt: connect() runs (either the
caller's or the retry timeout's invocation) and the attempt then fails
(10 second timeout or connection error), invoking handleRetry. -/
def failedAttemptCycle (s : PeerState) : PeerState := handleRetry (connectInvoke s)

lemma failedAttemptCycle_const (s : PeerState) (h : s.maxRetries = 3) :
    failedAttemptCycle s = ⟨ConnState.connecting, 1, 3, true, true⟩ := by
  obtain ⟨st, rc, mr, rs, sch⟩ := s
  simp only at h
  subst h
  rfl

-- ============================================================
-- src/services/TransferManager.ts : transfer state and receiver side
-- ============================================================

/-- FileMetadata from src/types (part_006): id, name, size, MIME type,
last-modified.  The field named type in the source is called mime here
because type is reserved. -/
structure FileMetadataR where
  id : String
  name : String
  size : ℕ
  mime : String
  lastModified : ℕ
deriving DecidableEq

inductive TransferState where
  | queued
  | sending
  | receiving
  | completed
  | failed
deriving DecidableEq

/-- TransferProgress records passed to updateProgress; the Infinity
estimatedTimeRemaining is modelled as none. -/
structure TransferProgressR where
  fileId : String
  fileName : String
  fileSize : ℕ
  bytesTransferred : ℕ
  totalBytes : ℕ
  speedBps : ℚ
  estimatedTimeRemaining : Option ℚ
  state : TransferState
  progress : ℚ
deriving DecidableEq

/-- An entry of the receivingFiles map: the chunk buffer new
Array(totalChunks) is a fixed-length list whose unfilled slots are none. -/
structure ReceivingFile where
  metadata : FileMetadataR
  chunks : List (Option (List ℕ))
  receivedChunks : ℕ
  totalChunks : ℕ
  bytesReceived : ℕ
  calculator : ThroughputCalculator
deriving DecidableEq

/-- TransferFile handed to the fileReceivedCallback. -/
structure TransferFileR where
  metadata : FileMetadataR
  chunks : List (List ℕ)
  receivedChunks : ℕ
  totalChunks : ℕ
deriving DecidableEq

/-- The receivingFiles Map as an association list keyed by fileId. -/
abbrev RecvMap := List (String × ReceivingFile)

def recvLookup (m : RecvMap) (k : String) : Option ReceivingFile :=
  (List.find? (fun p => p.1 == k) m).map Prod.snd

def recvSet (m : RecvMap) (k : String) (v : ReceivingFile) : RecvMap :=
  List.map (fun p => if p.1 == k then (k, v) else p) m

def recvErase (m : RecvMap) (k : String) : RecvMap :=
  List.filter (fun p => !(p.1 == k)) m

/-- handleFileMetadata: for each offered file, compute the receiver's
own chunk count from its current chunk size, create the empty buffer
entry and append it to the map (fresh fileIds are appended). -/
def handleFileMetadata (currentChunkSize : ℕ) (m : RecvMap)
    (files : List FileMetadataR) : RecvMap :=
  files.foldl
    (fun acc md =>
      acc ++ [(md.id,
        ⟨md, List.replicate (numChunks currentChunkSize md.size) none, 0,
         numChunks currentChunkSize md.size, 0, ThroughputCalculator.init⟩)])
    m

structure ChunkResult where
  files : RecvMap
  progressMsg : Option TransferProgressR
deriving DecidableEq

/-- handleChunk(fileId, chunkIndex, data): unknown fileIds are ignored;
otherwise the payload is stored at its index (overwriting whatever was
there), receivedChunks and bytesReceived are incremented unconditionally
and a receiving progress record is produced.  The now argument stands
for the Date.now() default of addSample. -/
def handleChunk (m : RecvMap) (fileId : String) (chunkIndex : ℕ)
    (data : List ℕ) (now : ℚ) : ChunkResult :=
  match recvLookup m fileId with
  | none => ⟨m, none⟩
  | some r =>
      let upd : ReceivingFile :=
        { r with chunks := r.chunks.set chunkIndex (some data),
                 receivedChunks := r.receivedChunks + 1,
                 bytesReceived := r.bytesReceived + data.length,
                 calculator := r.calculator.addSample (data.length : ℚ) now }
      let prog : TransferProgressR :=
        ⟨fileId, r.metadata.name, r.metadata.size, upd.bytesReceived, r.metadata.size,
         upd.calculator.getSpeed,
         upd.calculator.getETA ((r.metadata.size : ℚ) - (upd.bytesReceived : ℚ)),
         TransferState.receiving,
         ((upd.bytesReceived : ℚ) / (r.metadata.size : ℚ)) * 100⟩
      ⟨recvSet m fileId upd, some prog⟩

structure FileCompleteResult where
  files : RecvMap
  progressMsg : Option TransferProgressR
  received : Option TransferFileR
  allDone : Bool
deriving DecidableEq

/-- handleFileComplete: unknown fileIds are ignored; otherwise the
stored chunks are filtered with Boolean (dropping every hole), the file
is handed to the fileReceivedCallback together with a completed progress
record at 100 percent, the entry is deleted, and transfer completion
fires when the map becomes empty. -/
def handleFileComplete (m : RecvMap) (fileId : String) : FileCompleteResult :=
  match recvLookup m fileId with
  | none => ⟨m, none, none, false⟩
  | some r =>
      let tf : TransferFileR :=
        ⟨r.metadata, r.chunks.filterMap id, r.receivedChunks, r.totalChunks⟩
      let prog : TransferProgressR :=
        ⟨fileId, r.metadata.name, r.metadata.size, r.metadata.size, r.metadata.size,
         r.calculator.getSpeed, some 0, TransferState.completed, 100⟩
      let rest := recvErase m fileId
      ⟨rest, some prog, some tf, rest.isEmpty⟩

-- ============================================================
-- src/services/TransferManager.ts : sender side (sendFileChunks)
-- ============================================================

/-- An entry of the sendingFiles map, extended with the file contents. -/
structure SendingFile where
  fileBytes : List ℕ
  metadata : FileMetadataR
  chunkIndex : ℕ
  totalChunks : ℕ
  bytesTransferred : ℕ
  calculator : ThroughputCalculator
  paused : Bool
deriving DecidableEq

/-- Environment of one sendFileChunks run: the outcome of the k-th
sendBinary call and the Date.now() reading at the k-th sample. -/
structure SendEnv where
  oracle : ℕ → Bool
  times : ℕ → ℚ

/-- Everything a sendFileChunks run emits: the updateProgress calls in
order, the errorCallback calls, the surviving sendingFiles entry (none
when the file completed and was deleted) and the final adaptive chunk
size. -/
structure SendResult where
  emitted : List TransferProgressR
  errors : List (String × Option String)
  finalSending : Option SendingFile
  finalChunkSize : ℤ
deriving DecidableEq

/-- Completion path of sendFileChunks: file-complete is sent, a
completed progress record at 100 percent is emitted and the entry is
deleted from sendingFiles. -/
def sendComplete (s : SendingFile) (cs : ℤ) (acc : List TransferProgressR)
    (errs : List (String × Option String)) : SendResult :=
  let prog : TransferProgressR :=
    ⟨s.metadata.id, s.metadata.name, s.metadata.size, s.metadata.size, s.metadata.size,
     s.calculator.getSpeed, some 0, TransferState.completed, 100⟩
  ⟨(prog :: acc).reverse, errs.reverse, none, cs⟩

/-- The while loop of sendFileChunks, fuelled.  Each iteration slices
the next chunk at the current adaptive chunk size, sends it through
sendBinary, and on success emits a sending progress record and adapts
the chunk size; on failure it reports the error callback tagged with
the fileId and returns, leaving the entry in sendingFiles.  The paused
branch only burns fuel, mirroring the polling wait. -/
def sendChunksAux (env : SendEnv) (minCS maxCS : ℤ) :
    ℕ → SendingFile → ℤ → ℕ → List TransferProgressR →
    List (String × Option String) → SendResult
  | 0, s, cs, _, acc, errs =>
      if s.chunkIndex < s.totalChunks then ⟨acc.reverse, errs.reverse, some s, cs⟩
      else sendComplete s cs acc errs
  | fuel + 1, s, cs, k, acc, errs =>
      if s.chunkIndex < s.totalChunks then
        if s.paused then sendChunksAux env minCS maxCS fuel s cs k acc errs
        else
          let start := s.chunkIndex * cs.toNat
          let stop := min (start + cs.toNat) s.fileBytes.length
          let chunkData := (s.fileBytes.drop start).take (stop - start)
          if env.oracle k = false then
            ⟨acc.reverse, (("Failed to send chunk", some s.metadata.id) :: errs).reverse,
             some s, cs⟩
          else
            let upd : SendingFile :=
              { s with chunkIndex := s.chunkIndex + 1,
                       bytesTransferred := s.bytesTransferred + chunkData.length,
                       calculator := s.calculator.addSample (chunkData.length : ℚ) (env.times k) }
            let prog : TransferProgressR :=
              ⟨s.metadata.id, s.metadata.name, s.metadata.size, upd.bytesTransferred,
               s.metadata.size, upd.calculator.getSpeed,
               upd.calculator.getETA ((s.metadata.size : ℚ) - (upd.bytesTransferred : ℚ)),
               TransferState.sending,
               ((upd.bytesTransferred : ℚ) / (s.metadata.size : ℚ)) * 100⟩
            let cs2 := adaptChunkSize minCS maxCS cs upd.calculator.getSpeed
            sendChunksAux env minCS maxCS fuel upd cs2 (k + 1) (prog :: acc) errs
      else sendComplete s cs acc errs

/-- sendFileChunks for one file, starting from its sendingFiles entry. -/
def sendFileChunks (env : SendEnv) (minCS maxCS : ℤ) (s : SendingFile) (cs : ℤ) : SendResult :=
  sendChunksAux env minCS maxCS (s.totalChunks - s.chunkIndex) s cs 0 [] []

-- ============================================================
-- src/hooks/useTransfer.ts : the progress map kept by the hook
-- ============================================================

abbrev HookMap := List (String × TransferProgressR)

def hookLookup (m : HookMap) (k : String) : Option TransferProgressR :=
  (List.find? (fun p => p.1 == k) m).map Prod.snd

def hookSet (m : HookMap) (k : String) (v : TransferProgressR) : HookMap :=
  if (List.find? (fun p => p.1 == k) m).isSome then
    List.map (fun p => if p.1 == k then (k, v) else p) m
  else m ++ [(k, v)]

/-- onProgress stores each update under its fileId; onError flips an
existing entry for the tagged file to failed and does nothing when the
file has no entry yet. -/
def hookApplyError (m : HookMap) (e : String × Option String) : HookMap :=
  match e.2 with
  | none => m
  | some fid =>
      match hookLookup m fid with
      | none => m
      | some p => hookSet m fid { p with state := TransferState.failed }

/-- The transfers map after a run: progress updates applied in order,
then the error events. -/
def hookTransfers (progressEvents : List TransferProgressR)
    (errorEvents : List (String × Option String)) : HookMap :=
  errorEvents.foldl hookApplyError
    (progressEvents.foldl (fun m p => hookSet m p.fileId p) [])

-- ============================================================
-- Claim theorems
-- ============================================================

/-- C1: for a file split with any fixed positive chunk size by
chunkFile, reassembling all chunks in index order with
reassembleChunks yields a payload byte-identical to the source file,
in particular of exactly the source size. -/
theorem chunkFile_reassemble_roundtrip (C : ℕ) (file : List ℕ) (hC : 0 < C) :
    reassembleChunks (chunkFile C file) = file ∧
    (reassembleChunks (chunkFile C file)).length = file.length := by
  have h1 : reassembleChunks (chunkFile C file) = file := by
    unfold reassembleChunks chunkFile
    rw [join_chunks_take]
    exact List.take_of_length_le (le_numChunks_mul C file.length hC)
  exact ⟨h1, by rw [h1]⟩

/-- Witness for C1 at the repository's actual chunk size constant and a
concrete three-byte file. -/
theorem chunkFile_reassemble_roundtrip_witness :
    0 < CHUNK_SIZE ∧
    (reassembleChunks (chunkFile CHUNK_SIZE [7, 8, 9]) = [7, 8, 9] ∧
     (reassembleChunks (chunkFile CHUNK_SIZE [7, 8, 9])).length = ([7, 8, 9] : List ℕ).length) :=
  ⟨by decide, chunkFile_reassemble_roundtrip CHUNK_SIZE [7, 8, 9] (by decide)⟩

/-- C6: every identifier produced by generatePeerId, for any random
draws, passes validatePeerId and consists of exactly six characters of
the 32-symbol alphabet. -/
theorem generate_validate_ok (r : Fin 6 → Fin 32) :
    (validatePeerId (generatePeerId r)).valid = true ∧
    (generatePeerId r).length = 6 ∧
    ∀ c ∈ generatePeerId r, c ∈ alphabet := by
  have hmem : ∀ c ∈ generatePeerId r, c ∈ alphabet := by
    intro c hc
    unfold generatePeerId at hc
    rw [List.mem_ofFn] at hc
    obtain ⟨i, hi⟩ := hc
    rw [← hi]
    exact alphabet_getD_mem (r i)
  have hlen : (generatePeerId r).length = 6 := by
    unfold generatePeerId
    exact List.length_ofFn _
  have htrim : trimChars (generatePeerId r) = generatePeerId r :=
    trimChars_eq_self (fun c hc => (alphabet_char_facts c (hmem c hc)).1)
  have hup : upperChars (generatePeerId r) = generatePeerId r :=
    map_eq_self (fun c hc => (alphabet_char_facts c (hmem c hc)).2.1)
  have hne : generatePeerId r ≠ [] := by
    intro h
    rw [h] at hlen
    simp at hlen
  have hregex : regexAZ09test (generatePeerId r) = true := by
    unfold regexAZ09test
    rw [Bool.and_eq_true, List.all_eq_true]
    constructor
    · simp [List.isEmpty_iff, hne]
    · exact fun c hc => (alphabet_char_facts c (hmem c hc)).2.2.1
  refine ⟨?_, hlen, hmem⟩
  have htne : ¬trimChars (generatePeerId r) = [] := by
    rw [htrim]
    exact hne
  unfold validatePeerId
  rw [if_neg htne]
  simp only [htrim, hup, hlen, hregex]
  norm_num

/-- Counterexample to C7: the input OO0011 contains only characters
outside the 32-symbol alphabet (O, 0 and 1 are excluded glyphs), yet
validatePeerId accepts it, because the code checks the full class
[A-Z0-9]. -/
theorem validatePeerId_claim_counterexample :
    (validatePeerId ("OO0011".toList)).valid = true ∧
    'O' ∈ upperChars (trimChars ("OO0011".toList)) ∧
    'O' ∉ alphabet ∧
    (upperChars (trimChars ("OO0011".toList))).length = 6 := by
  decide

/-- C7 (amended): validatePeerId fails with a structured reason exactly
when the trimmed, uppercased input is empty, is not exactly six
characters long, or contains a character outside the 36-symbol class
A-Z, 0-9 (the code does not exclude the ambiguous glyphs I, O, 0, 1). -/
theorem validatePeerId_failure_conditions (input : List Char) :
    ((validatePeerId input).valid = false ↔
      (upperChars (trimChars input) = [] ∨
       (upperChars (trimChars input)).length ≠ 6 ∨
       ∃ c ∈ upperChars (trimChars input), isAZ09 c = false)) ∧
    ((validatePeerId input).error.isSome ↔ (validatePeerId input).valid = false) := by
  have heq : validatePeerId input =
      (if trimChars input = [] then (⟨false, some "Peer ID is required"⟩ : ValidationResult)
       else if (upperChars (trimChars input)).length ≠ 6 then
         ⟨false, some "Peer ID must be 6 characters"⟩
       else if regexAZ09test (upperChars (trimChars input)) = false then
         ⟨false, some "Peer ID must contain only letters and numbers"⟩
       else ⟨true, none⟩) := rfl
  by_cases h1 : trimChars input = []
  · have ht : upperChars (trimChars input) = [] := by
      rw [h1]
      rfl
    rw [heq, if_pos h1]
    exact ⟨⟨fun _ => Or.inl ht, fun _ => rfl⟩, by simp⟩
  · by_cases h2 : (upperChars (trimChars input)).length = 6
    · by_cases h3 : regexAZ09test (upperChars (trimChars input)) = true
      · rw [heq, if_neg h1, if_neg (by simp [h2]), if_neg (by simp [h3])]
        refine ⟨⟨fun h => by simp at h, ?_⟩, by simp⟩
        rintro (h | h | ⟨c, hc, hcf⟩)
        · rw [h] at h2
          simp at h2
        · exact absurd h2 h
        · unfold regexAZ09test at h3
          rw [Bool.and_eq_true, List.all_eq_true] at h3
          rw [h3.2 c hc] at hcf
          simp at hcf
      · have h3f : regexAZ09test (upperChars (trimChars input)) = false := by
          rw [Bool.not_eq_true] at h3
          exact h3
        rw [heq, if_neg h1, if_neg (by simp [h2]), if_pos (by rw [h3f])]
        refine ⟨⟨fun _ => Or.inr (Or.inr ?_), fun _ => rfl⟩, by simp⟩
        unfold regexAZ09test at h3f
        rw [Bool.and_eq_false_iff] at h3f
        rcases h3f with h3f | h3f
        · exfalso
          simp [List.isEmpty_iff] at h3f
          rw [h3f] at h2
          simp at h2
        · have hnot : ¬∀ c ∈ upperChars (trimChars input), isAZ09 c = true := by
            rw [← List.all_eq_true]
            simp [h3f]
          push_neg at hnot
          obtain ⟨c, hc, hcf⟩ := hnot
          exact ⟨c, hc, by simpa using hcf⟩
    · rw [heq, if_neg h1, if_pos h2]
      exact ⟨⟨fun _ => Or.inr (Or.inl h2), fun _ => rfl⟩, by simp⟩

/-- C8: for any six-character identifier over the alphabet, parsing the
formatted form gives back the identifier: formatting inserts the hyphen
after three characters and parsing removes separators and whitespace
and re-uppercases. -/
theorem parse_format_roundtrip (id : List Char) (hlen : id.length = 6)
    (halpha : ∀ c ∈ id, c ∈ alphabet) :
    parsePeerId (formatPeerId id) = id := by
  have hne : ¬(id = [] ∨ id.length ≠ 6) := by
    rintro (h | h)
    · rw [h] at hlen
      simp at hlen
    · exact h hlen
  unfold formatPeerId
  rw [if_neg hne]
  unfold parsePeerId
  have hkeep : ∀ c ∈ id, (!((c == '-') || wsChar c)) = true := by
    intro c hc
    have h := alphabet_char_facts c (halpha c hc)
    rw [h.1, h.2.2.2]
    rfl
  rw [List.filter_append, List.filter_cons]
  have hdash : (!(('-' == '-') || wsChar '-')) = false := by decide
  rw [hdash]
  simp only [Bool.false_eq_true, if_false]
  rw [List.filter_eq_self.mpr (fun a ha => hkeep a (List.mem_of_mem_take ha)),
      List.filter_eq_self.mpr (fun a ha => hkeep a (List.mem_of_mem_drop ha)),
      List.take_append_drop]
  exact map_eq_self (fun c hc => (alphabet_char_facts c (halpha c hc)).2.1)

/-- Witness for C8 at the concrete identifier ABCDEF. -/
theorem parse_format_roundtrip_witness :
    (("ABCDEF".toList).length = 6 ∧ ∀ c ∈ "ABCDEF".toList, c ∈ alphabet) ∧
    parsePeerId (formatPeerId ("ABCDEF".toList)) = "ABCDEF".toList :=
  ⟨⟨by decide, by decide⟩, parse_format_roundtrip ("ABCDEF".toList) (by decide) (by decide)⟩

/-- Counterexample to C5: on a fresh calculator with samples of 1000
bytes at t = 1000 ms and t = 2000 ms (strictly increasing), the second
sample sets the smoothed speed to the full instantaneous 1000 bytes per
second, not to the claimed alpha blend 0.3 times 1000 plus 0.7 times 0,
which would be 300. -/
theorem addSample_ema_counterexample :
    (ThroughputCalculator.init.addSample 1000 1000).getSpeed = 0 ∧
    ((ThroughputCalculator.init.addSample 1000 1000).addSample 1000 2000).getSpeed = 1000 ∧
    ((ThroughputCalculator.init.addSample 1000 1000).addSample 1000 2000).getSpeed ≠
      (3 : ℚ) / 10 * 1000 +
        (1 - (3 : ℚ) / 10) * (ThroughputCalculator.init.addSample 1000 1000).getSpeed := by
  norm_num [ThroughputCalculator.init, ThroughputCalculator.addSample,
    ThroughputCalculator.getSpeed]

/-- C5 (amended): the first sample only records the baseline timestamp
and getSpeed stays 0; each later sample with a larger timestamp computes
the instantaneous speed bytes divided by elapsed seconds and, when the
current smoothed speed is 0, bootstraps the smoothed speed with that
instantaneous value, otherwise blends 0.3 times instant plus 0.7 times
the previous smoothed speed. -/
theorem addSample_first_and_step (tc : ThroughputCalculator) (b ts b0 t0 : ℚ)
    (hsf : tc.smoothingFactor = 3 / 10)
    (h0 : tc.lastUpdateTime ≠ 0)
    (hts : tc.lastUpdateTime < ts) :
    (ThroughputCalculator.init.addSample b0 t0).getSpeed = 0 ∧
    (tc.addSample b ts).getSpeed =
      (if tc.getSpeed = 0 then b / ((ts - tc.lastUpdateTime) / 1000)
       else (3 : ℚ) / 10 * (b / ((ts - tc.lastUpdateTime) / 1000)) +
            (1 - (3 : ℚ) / 10) * tc.getSpeed) := by
  constructor
  · rfl
  · unfold ThroughputCalculator.addSample ThroughputCalculator.getSpeed
    rw [if_neg h0]
    have hdelta : ¬((ts - tc.lastUpdateTime) / 1000 ≤ 0) := by
      push_neg
      have hpos : 0 < ts - tc.lastUpdateTime := by linarith
      positivity
    rw [if_neg hdelta]
    simp only [hsf]

/-- Witness for C5 at a fresh calculator that has taken its baseline
sample at t = 1000 ms and then samples 1000 bytes at t = 2000 ms. -/
theorem addSample_first_and_step_witness :
    ((ThroughputCalculator.init.addSample 1000 1000).smoothingFactor = 3 / 10 ∧
     (ThroughputCalculator.init.addSample 1000 1000).lastUpdateTime ≠ 0 ∧
     (ThroughputCalculator.init.addSample 1000 1000).lastUpdateTime < 2000) ∧
    ((ThroughputCalculator.init.addSample 500 500).getSpeed = 0 ∧
     ((ThroughputCalculator.init.addSample 1000 1000).addSample 1000 2000).getSpeed =
       (if (ThroughputCalculator.init.addSample 1000 1000).getSpeed = 0 then
          1000 / ((2000 - (ThroughputCalculator.init.addSample 1000 1000).lastUpdateTime) / 1000)
        else (3 : ℚ) / 10 *
              (1000 / ((2000 - (ThroughputCalculator.init.addSample 1000 1000).lastUpdateTime) / 1000)) +
            (1 - (3 : ℚ) / 10) * (ThroughputCalculator.init.addSample 1000 1000).getSpeed)) :=
  ⟨⟨by norm_num [ThroughputCalculator.init, ThroughputCalculator.addSample],
    by norm_num [ThroughputCalculator.init, ThroughputCalculator.addSample],
    by norm_num [ThroughputCalculator.init, ThroughputCalculator.addSample]⟩,
   addSample_first_and_step (ThroughputCalculator.init.addSample 1000 1000) 1000 2000 500 500
     (by norm_num [ThroughputCalculator.init, ThroughputCalculator.addSample])
     (by norm_num [ThroughputCalculator.init, ThroughputCalculator.addSample])
     (by norm_num [ThroughputCalculator.init, ThroughputCalculator.addSample])⟩

/-- C9: adaptChunkSize computes the claimed smoothing rule, the round
of 0.7 times the previous size plus 0.3 times the speed-derived size
clamped into the configured bounds, and whenever the bounds are ordered
and the previous size lies inside them, the updated size lies inside
them as well. -/
theorem adaptChunkSize_formula_and_bounds (lo hi cur : ℤ) (speed : ℚ)
    (hlohi : lo ≤ hi) (hcur1 : lo ≤ cur) (hcur2 : cur ≤ hi) :
    adaptChunkSize lo hi cur speed =
      jsRound ((cur : ℚ) * (7 / 10) + clampQ lo hi (speed * (1 / 10)) * (3 / 10)) ∧
    lo ≤ adaptChunkSize lo hi cur speed ∧ adaptChunkSize lo hi cur speed ≤ hi := by
  have hn1 : (lo : ℚ) ≤ max (lo : ℚ) (min (hi : ℚ) (speed * (1 / 10))) := le_max_left _ _
  have hn2 : max (lo : ℚ) (min (hi : ℚ) (speed * (1 / 10))) ≤ (hi : ℚ) :=
    max_le (by exact_mod_cast hlohi) (min_le_left _ _)
  have hc1 : (lo : ℚ) ≤ (cur : ℚ) := by exact_mod_cast hcur1
  have hc2 : (cur : ℚ) ≤ (hi : ℚ) := by exact_mod_cast hcur2
  refine ⟨rfl, ?_, ?_⟩
  · simp only [adaptChunkSize, jsRound]
    refine Int.le_floor.mpr ?_
    nlinarith [hn1, hc1]
  · simp only [adaptChunkSize, jsRound]
    have hlt : (cur : ℚ) * (7 / 10) +
        max (lo : ℚ) (min (hi : ℚ) (speed * (1 / 10))) * (3 / 10) + 1 / 2 <
        ((hi + 1 : ℤ) : ℚ) := by
      push_cast
      nlinarith [hn2, hc2]
    exact Int.lt_add_one_iff.mp (Int.floor_lt.mpr hlt)

/-- Witness for C9 with the default bounds 16 KiB and 256 KiB, a
previous size of 64 KiB and a speed of one million bytes per second. -/
theorem adaptChunkSize_formula_and_bounds_witness :
    ((16384 : ℤ) ≤ 262144 ∧ (16384 : ℤ) ≤ 65536 ∧ (65536 : ℤ) ≤ 262144) ∧
    (adaptChunkSize 16384 262144 65536 1000000 =
       jsRound ((65536 : ℚ) * (7 / 10) + clampQ 16384 262144 ((1000000 : ℚ) * (1 / 10)) * (3 / 10)) ∧
     (16384 : ℤ) ≤ adaptChunkSize 16384 262144 65536 1000000 ∧
     adaptChunkSize 16384 262144 65536 1000000 ≤ 262144) :=
  ⟨⟨by decide, by decide, by decide⟩,
   adaptChunkSize_formula_and_bounds 16384 262144 65536 1000000 (by decide) (by decide) (by decide)⟩

/-- C4: the automatic retry path refutes the claimed bound.  Every
scheduled retry re-enters connect(), which resets the retry counter to
zero, so after three consecutive failed connection attempts (the
claimed maxRetries) the manager is still connecting with another retry
scheduled, and however many consecutive attempts fail it remains
connecting with retryCount 1 and a retry scheduled, never reaching the
error state. -/
theorem handleRetry_counter_reset_never_errors :
    ((failedAttemptCycle^[3]) (initPeer 3)).state = ConnState.connecting ∧
    ((failedAttemptCycle^[3]) (initPeer 3)).retryScheduled = true ∧
    ∀ n : ℕ, (failedAttemptCycle^[n + 1]) (initPeer 3) =
      ⟨ConnState.connecting, 1, 3, true, true⟩ := by
  have key : ∀ n : ℕ, (failedAttemptCycle^[n + 1]) (initPeer 3) =
      ⟨ConnState.connecting, 1, 3, true, true⟩ := by
    intro n
    induction n with
    | zero => rfl
    | succ n ih =>
        rw [Function.iterate_succ_apply', ih]
        rfl
  have h3 : (failedAttemptCycle^[3]) (initPeer 3) = ⟨ConnState.connecting, 1, 3, true, true⟩ :=
    key 2
  exact ⟨by rw [h3], by rw [h3], key⟩

-- Concrete receiver scenario for C2: a file of 8 bytes split in two
-- 4-byte chunks (receiver chunk size 4), of which only chunk 0 arrives.

def c2md : FileMetadataR := ⟨"f1", "a.bin", 8, "application/octet-stream", 0⟩

def c2map0 : RecvMap := handleFileMetadata 4 [] [c2md]

def c2map1 : RecvMap := (handleChunk c2map0 "f1" 0 [1, 2, 3, 4] 1000).files

def c2out : FileCompleteResult := handleFileComplete c2map1 "f1"

/-- C2: handling file-complete while chunk index 1 was never received
does not fail; the gap is silently dropped.  The stored buffer still
shows the hole, yet the handed-off TransferFile keeps only the filtered
chunks (4 of the 8 metadata bytes), the final progress update says
completed at 100 percent, and session completion fires. -/
theorem fileComplete_gap_silently_dropped :
    (recvLookup c2map1 "f1").map (fun r => r.chunks) = some [some [1, 2, 3, 4], none] ∧
    c2out.received = some ⟨c2md, [[1, 2, 3, 4]], 1, 2⟩ ∧
    (c2out.received.map (fun tf => (reassembleChunks tf.chunks).length)) = some 4 ∧
    c2md.size = 8 ∧
    c2out.progressMsg.map (fun p => p.state) = some TransferState.completed ∧
    c2out.progressMsg.map (fun p => p.progress) = some 100 ∧
    c2out.allDone = true :=
  ⟨rfl, rfl, rfl, rfl, rfl, rfl, rfl⟩

-- Concrete receiver scenario for C10: a single-chunk file of 4 bytes
-- whose chunk index 0 is delivered twice with non-empty payloads.

def c10md : FileMetadataR := ⟨"f2", "b.bin", 4, "application/octet-stream", 0⟩

def c10map0 : RecvMap := handleFileMetadata 4 [] [c10md]

def c10r1 : ChunkResult := handleChunk c10map0 "f2" 0 [9, 9, 9, 9] 1000

def c10r2 : ChunkResult := handleChunk c10r1.files "f2" 0 [8, 8, 8, 8] 2000

/-- C10: delivering the same chunk index twice stores only the second
copy, yet both calls increment receivedChunks and add the payload bytes
to bytesReceived, so the reported progress percentage reaches 200,
exceeding 100. -/
theorem duplicate_chunk_overcounts_progress :
    (recvLookup c10r2.files "f2").map (fun r => r.chunks) = some [some [8, 8, 8, 8]] ∧
    (recvLookup c10r2.files "f2").map (fun r => r.receivedChunks) = some 2 ∧
    (recvLookup c10r2.files "f2").map (fun r => r.bytesReceived) = some 8 ∧
    c10r2.progressMsg.map (fun p => p.progress) =
      some (((8 : ℕ) : ℚ) / ((4 : ℕ) : ℚ) * 100) ∧
    (100 : ℚ) < ((8 : ℕ) : ℚ) / ((4 : ℕ) : ℚ) * 100 :=
  ⟨rfl, rfl, rfl, rfl, by norm_num⟩

-- Concrete sender scenario for C3: one 8-byte file in two 4-byte
-- chunks whose very first sendBinary call reports failure.

def c3md : FileMetadataR := ⟨"f3", "c.bin", 8, "application/octet-stream", 0⟩

def c3send : SendingFile :=
  ⟨[1, 2, 3, 4, 5, 6, 7, 8], c3md, 0, 2, 0, ThroughputCalculator.init, false⟩

def c3env : SendEnv := ⟨fun _ => false, fun _ => 0⟩

def c3out : SendResult := sendFileChunks c3env 16384 262144 c3send 4

/-- C3: when the first sendBinary call fails, sendFileChunks only fires
the error callback tagged with the fileId and returns.  No progress
update is ever emitted for the file, in particular none with state
failed, the entry silently stays in sendingFiles, and the transfers map
kept by the useTransfer hook ends empty: the file has no progress entry
at all instead of ending in the failed state. -/
theorem sendBinary_failure_leaves_no_failed_progress :
    c3out.emitted = [] ∧
    c3out.errors = [("Failed to send chunk", some "f3")] ∧
    c3out.finalSending = some c3send ∧
    hookTransfers c3out.emitted c3out.errors = [] ∧
    hookLookup (hookTransfers c3out.emitted c3out.errors) "f3" = none :=
  ⟨rfl, rfl, rfl, rfl, rfl⟩
